import Mathlib

set_option maxRecDepth 40000
set_option maxHeartbeats 2000000

/-!
Verification of the content-extraction core of the reading-assistant browser
extension, as implemented in `src/services/contentExtractor.ts` and the
visible-text utilities of the content script.

Strings are modelled as Lean `String` (a wrapper around `List Char`); the
JavaScript string operations used by the code (`trim`, `split(/\s+/)`,
`substring`, truthiness of `""`/`undefined`) are embedded as explicit
functions on `String`/`List Char` below.  The DOM is modelled as a
first-child / next-sibling linked tree, which is exactly the pointer
structure the extractor walks (`querySelectorAll` document order,
`nextElementSibling`, `textContent`).
-/

/-- Whitespace class used by JavaScript `\s` and `String.prototype.trim`
(restricted to the ASCII whitespace characters; the claims do not depend on
the exact character class). -/
def isWs (c : Char) : Bool :=
  c == ' ' || c == '\t' || c == '\n' || c == '\r' || c.toNat == 11 || c.toNat == 12

/-- JavaScript `String.prototype.trim` on the underlying character list:
drop whitespace from both ends. -/
def trimList (l : List Char) : List Char :=
  ((l.dropWhile isWs).reverse.dropWhile isWs).reverse

/-- JavaScript `s.trim()`. -/
def jsTrimS (s : String) : String :=
  String.mk (trimList s.data)

/-- Worker for `split(/\s+/)`.  `inSep` records whether the previous character
belonged to the current (maximal) whitespace run, so a run of whitespace acts
as a single separator; `acc` is the (reversed) current token.  Mirrors the
ECMAScript behaviour including the empty leading/trailing tokens:
`" a".split(/\s+/) = ["", "a"]`, `"a ".split(/\s+/) = ["a", ""]`. -/
def splitGo : Bool → List Char → List Char → List (List Char)
  | _, [], acc => [acc.reverse]
  | inSep, c :: cs, acc =>
    if isWs c then
      if inSep then splitGo true cs []
      else acc.reverse :: splitGo true cs []
    else splitGo false cs (c :: acc)

/-- JavaScript `s.split(/\s+/)` on the underlying character list. -/
def jsSplitWs (l : List Char) : List (List Char) :=
  splitGo false l []

/-- `countWords` from `contentExtractor.ts`:
`text.split(/\s+/).filter(Boolean).length` (the `Boolean` filter removes the
falsy empty-string tokens). -/
def countWords (text : String) : Nat :=
  ((jsSplitWs text.data).filter (fun w => !w.isEmpty)).length

/-- JavaScript `a || b` where `a` is a possibly-`undefined` string (`none`)
and the empty string is falsy. -/
def jsOrS (a : Option String) (b : String) : String :=
  match a with
  | none => b
  | some s => if s = "" then b else s

/-- JavaScript truthiness of a possibly-`undefined` string. -/
def optTruthy (a : Option String) : Bool :=
  match a with
  | none => false
  | some s => !(s == "")

/-- `ContentSection` of `contentExtractor.ts`:
`{ heading?: string, content: string, importance: number }`. -/
structure ContentSection where
  heading : Option String
  content : String
  importance : Int
deriving DecidableEq, Repr

/-- `PageMetadata` of `contentExtractor.ts`. -/
structure PageMetadata where
  title : String
  url : String
  siteName : Option String
  description : Option String
deriving DecidableEq, Repr

/-- `ExtractedContent` of `contentExtractor.ts`. -/
structure ExtractedContent where
  metadata : PageMetadata
  mainContent : String
  sections : List ContentSection
  wordCount : Nat
deriving DecidableEq, Repr

/-- Insert a section into an importance-descending sorted list, placing it
before the first element of not-larger importance; used to realise the
ECMAScript stable sort with comparator `(a, b) => b.importance - a.importance`
(ES2019 requires `Array.prototype.sort` to be stable, and a stable sort with
a consistent comparator has a unique result, so any stable descending sort is
extensionally the sort the code performs). -/
def insertDesc (s : ContentSection) : List ContentSection → List ContentSection
  | [] => [s]
  | t :: ts => if t.importance ≤ s.importance then s :: t :: ts else t :: insertDesc s ts

/-- `[...sections].sort((a, b) => b.importance - a.importance)` — the
`sortedSections` value of `combineContentSections`, as a stable insertion
sort (descending by importance). -/
def sortSections : List ContentSection → List ContentSection
  | [] => []
  | s :: ss => insertDesc s (sortSections ss)

/-- The rendering loop of `combineContentSections`: for each section in
order, `"## {heading} ##\n\n"` when the heading is truthy, then
`"{content}\n\n"`. -/
def renderSections (l : List ContentSection) : String :=
  l.foldl
    (fun acc s =>
      acc ++ (if optTruthy s.heading then "## " ++ s.heading.getD "" ++ " ##\n\n" else "")
        ++ s.content ++ "\n\n")
    ""

/-- `combineContentSections` of `contentExtractor.ts`: stable-sort a copy of
the sections by importance descending, concatenate, and trim the result. -/
def combineContentSections (sections : List ContentSection) : String :=
  jsTrimS (renderSections (sortSections sections))

/-- The truncation marker appended by `formatContentForChatGPT`:
`"\n\n[Content truncated due to length. {wordCount} total words on page]"`. -/
def truncMarker (wordCount : Nat) : String :=
  "\n\n[Content truncated due to length. " ++ toString wordCount ++ " total words on page]"

/-- The metadata preamble built by `formatContentForChatGPT` before the main
content is appended: `PAGE INFORMATION`, `Title`, `URL`, optional `Site` and
`Description` lines (emitted only when truthy), a blank line, and the
`PAGE CONTENT ({wordCount} words):` header. -/
def preF (ec : ExtractedContent) : String :=
  "PAGE INFORMATION:\n"
    ++ "Title: " ++ ec.metadata.title ++ "\n"
    ++ "URL: " ++ ec.metadata.url ++ "\n"
    ++ (if optTruthy ec.metadata.siteName then "Site: " ++ ec.metadata.siteName.getD "" ++ "\n" else "")
    ++ (if optTruthy ec.metadata.description then "Description: " ++ ec.metadata.description.getD "" ++ "\n" else "")
    ++ "\n"
    ++ "PAGE CONTENT (" ++ toString ec.wordCount ++ " words):\n\n"

/-- The formatted string before the length check of
`formatContentForChatGPT`: preamble followed by `mainContent`. -/
def rawFormatted (ec : ExtractedContent) : String :=
  preF ec ++ ec.mainContent

/-- `formatContentForChatGPT` of `contentExtractor.ts`: if the formatted
string exceeds 8000 characters, keep `substring(0, 8000)` and append the
truncation marker. -/
def formatContentForChatGPT (ec : ExtractedContent) : String :=
  if 8000 < (rawFormatted ec).data.length then
    String.mk ((rawFormatted ec).data.take 8000) ++ truncMarker ec.wordCount
  else rawFormatted ec

/-- The computed style and layout fields of an element read by
`isElementVisible` in the content script's visible-text utilities. -/
structure VisElem where
  display : String
  visibility : String
  opacity : String
  offsetWidth : Nat
  offsetHeight : Nat
deriving DecidableEq, Repr

/-- `isElementVisible` of the visible-text utilities: an element is visible
unless `display:none`, `visibility:hidden`, zero opacity string, or a zero
rendered dimension. -/
def isElementVisible (e : VisElem) : Bool :=
  !(e.display == "none" || e.visibility == "hidden" || e.opacity == "0"
    || e.offsetWidth == 0 || e.offsetHeight == 0)

/-- The DOM forest as the extractor sees it, in first-child / next-sibling
form: a `Dom` value is a node together with the chain of its following
siblings.  `elemN tag idAttr classes child next` is an element (tag names
normalised to lower case), `textN s next` a text node, `nil` the end of a
sibling chain. -/
inductive Dom where
  | nil : Dom
  | textN (s : String) (next : Dom) : Dom
  | elemN (tag : String) (idAttr : Option String) (classes : List String)
      (child : Dom) (next : Dom) : Dom
deriving DecidableEq, Repr

/-- `textContent` of a whole sibling forest: concatenation of all text-node
data in document order. -/
def tcForest : Dom → String
  | .nil => ""
  | .textN s next => s ++ tcForest next
  | .elemN _ _ _ child next => tcForest child ++ tcForest next

/-- `node.textContent` of the first node alone (ignoring its siblings). -/
def nodeTC : Dom → String
  | .nil => ""
  | .textN s _ => s
  | .elemN _ _ _ child _ => tcForest child

/-- Tag of the first node (empty for text nodes / end of chain). -/
def tagOf : Dom → String
  | .elemN t _ _ _ _ => t
  | _ => ""

/-- The `nextSibling` chain of the first node. -/
def nextOf : Dom → Dom
  | .nil => .nil
  | .textN _ next => next
  | .elemN _ _ _ _ next => next

/-- The first child of the first node (for `element.querySelectorAll`, which
searches descendants only). -/
def childOf : Dom → Dom
  | .elemN _ _ _ child _ => child
  | _ => .nil

/-- Does the tag belong to the selector `h1, h2, h3, h4, h5, h6` (equally,
does the tag name match `/^H[1-6]$/i`)? -/
def isHeadingTag (t : String) : Bool :=
  t == "h1" || t == "h2" || t == "h3" || t == "h4" || t == "h5" || t == "h6"

/-- Decimal-digit prefix accumulator for `parseInt`. -/
def digitsVal : List Char → Nat → Nat
  | [], n => n
  | c :: cs, n => if c.isDigit then digitsVal cs (n * 10 + (c.toNat - 48)) else n

/-- `parseInt(heading.tagName.substring(1))` — the heading level.  (For the
tags actually matched, `h1`…`h6`, this is 1…6; the NaN case of `parseInt` is
unreachable there.) -/
def levelOf (tag : String) : Nat :=
  digitsVal (tag.data.drop 1) 0

/-- One simple selector from the extractor's selector lists: a tag name, a
class name (`.foo`), or an id (`#foo`). -/
inductive Sel where
  | tag (t : String)
  | cls (c : String)
  | idSel (i : String)

/-- Does an element with the given tag / id / class list match the selector? -/
def matchesSel : Sel → String → Option String → List String → Bool
  | .tag t, tg, _, _ => tg == t
  | .cls c, _, _, cls => cls.contains c
  | .idSel i, _, idv, _ => idv == some i

/-- Generic pre-order element collector over a sibling forest: every element
whose (tag, id, classes) satisfies `pb`, in `querySelectorAll` document
order.  The collected nodes keep their sibling chains, preserving the
context needed for `nextElementSibling` walks. -/
def collectElems (pb : String → Option String → List String → Bool) : Dom → List Dom
  | .nil => []
  | .textN _ next => collectElems pb next
  | .elemN t i c child next =>
    (if pb t i c then [Dom.elemN t i c child next] else [])
      ++ collectElems pb child ++ collectElems pb next

/-- `element.querySelectorAll('h1, h2, h3, h4, h5, h6')` over the element's
children. -/
def collectHeadings (d : Dom) : List Dom :=
  collectElems (fun t _ _ => isHeadingTag t) d

/-- `element.querySelectorAll(tag)` for a single tag selector. -/
def collectByTag (tag : String) (d : Dom) : List Dom :=
  collectElems (fun t _ _ => t == tag) d

/-- `element.querySelectorAll('ul, ol')`. -/
def collectLists (d : Dom) : List Dom :=
  collectElems (fun t _ _ => t == "ul" || t == "ol") d

/-- The `nextElementSibling` accumulation loop of `processContentElement`:
walk element siblings until the next heading (text siblings are skipped by
`nextElementSibling`), appending `textContent.trim() + ' '` for every
sibling with non-blank text. -/
def followingText : Dom → String
  | .nil => ""
  | .textN _ next => followingText next
  | .elemN t _ _ child next =>
    if isHeadingTag t then ""
    else
      (if jsTrimS (tcForest child) ≠ "" then jsTrimS (tcForest child) ++ " " else "")
        ++ followingText next

/-- The per-heading section of `processContentElement`: importance
`max(11 - headingLevel, 5)`, the heading's own trimmed text, and the
accumulated text of the following non-heading siblings; skipped when both
heading text and content are empty (`if (headingText || contentText)`), with
`heading: headingText || undefined`. -/
def headSecOf (h : Dom) : List ContentSection :=
  if jsTrimS (nodeTC h) ≠ "" ∨ followingText (nextOf h) ≠ "" then
    [{ heading := if jsTrimS (nodeTC h) = "" then none else some (jsTrimS (nodeTC h)),
       content := jsTrimS (followingText (nextOf h)),
       importance := max (11 - (levelOf (tagOf h) : Int)) 5 }]
  else []

/-- Paragraph-branch accumulation of `processContentElement`: concatenate
`p.textContent.trim() + ' '` over all paragraphs with non-blank text. -/
def paraText (ps : List Dom) : String :=
  ps.foldl
    (fun acc p => if jsTrimS (nodeTC p) ≠ "" then acc ++ jsTrimS (nodeTC p) ++ " " else acc)
    ""

/-- Numbered list text of one `ul`/`ol`: `"{index+1}. {itemText}\n"` per
list item with non-blank text, where `index` is the item's position among
all `li` descendants (blank items still consume an index). -/
def listText (items : List Dom) : String :=
  items.enum.foldl
    (fun acc p =>
      if jsTrimS (nodeTC p.2) ≠ "" then
        acc ++ toString (p.1 + 1) ++ ". " ++ jsTrimS (nodeTC p.2) ++ "\n"
      else acc)
    ""

/-- List sections of `processContentElement`: one importance-6 section per
`ul`/`ol` with non-empty numbered text. -/
def listSecsOf (d : Dom) : List ContentSection :=
  (collectLists d).foldr
    (fun l acc =>
      (if listText (collectByTag "li" (childOf l)) ≠ "" then
        [{ heading := none, content := jsTrimS (listText (collectByTag "li" (childOf l))),
           importance := 6 }]
      else []) ++ acc)
    []

/-- The heading / paragraph / raw-text branch of `processContentElement`
(the value the `sections.push` calls of the branch produce). -/
def pceBase (el : Dom) : List ContentSection :=
  if (collectHeadings (childOf el)).length > 0 then
    (collectHeadings (childOf el)).flatMap headSecOf
  else if (collectByTag "p" (childOf el)).length > 0 then
    (if paraText (collectByTag "p" (childOf el)) ≠ "" then
      [{ heading := none, content := jsTrimS (paraText (collectByTag "p" (childOf el))),
         importance := 7 }]
    else [])
  else
    (if jsTrimS (nodeTC el) ≠ "" then
      [{ heading := none, content := jsTrimS (nodeTC el), importance := 5 }]
    else [])

/-- `processContentElement` of `contentExtractor.ts`: heading sections if any
heading exists, else one importance-7 paragraph section, else one
importance-5 raw-text section; independently, the list sections are
appended. -/
def processContentElement (el : Dom) : List ContentSection :=
  pceBase el ++ listSecsOf (childOf el)

/-- The gmail subject query result: an element of which only `textContent`
is read (`null` when the DOM reports no text). -/
structure GQElem where
  textContent : Option String
deriving DecidableEq, Repr

/-- One gmail message-body element: its own `textContent` and the element
found by `closest('[data-message-id]')?.querySelector(...)` for the sender
(absent when either step finds nothing). -/
structure GBodyElem where
  textContent : Option String
  senderEl : Option GQElem
deriving DecidableEq, Repr

/-- One `[role="main"] [role="list"] [role="listitem"]` candidate of the
visible-content fallback: layout dimensions and text. -/
structure GListItem where
  offsetHeight : Nat
  offsetWidth : Nat
  textContent : Option String
deriving DecidableEq, Repr

/-- One `tr[role="row"]` inbox row: the elements found by the sender
(`.yW, .bA4`), subject (`.y6`) and snippet (`.y2`) queries. -/
structure GRow where
  senderEl : Option GQElem
  subjectEl : Option GQElem
  snippetEl : Option GQElem
deriving DecidableEq, Repr

/-- Results of the DOM queries issued by `extractGmailContent`.  Each query
is `Except Unit _`: `.error ()` models the query throwing (the whole method
body sits in a `try`), `.ok` its normal result. -/
structure GmailQueries where
  subjectElements : Except Unit (List GQElem)
  emailBodyElements : Except Unit (List GBodyElem)
  alternativeEmailBodies : Except Unit (List GBodyElem)
  visibleEmailContent : Except Unit (List GListItem)
  mainElement : Except Unit (Option GQElem)
  emailListItems : Except Unit (List GRow)

/-- `q?.textContent?.trim() || ''` for an optional element. -/
def optElTextOrEmpty (o : Option GQElem) : String :=
  match o with
  | none => ""
  | some e => jsOrS (e.textContent.map jsTrimS) ""

/-- The subject section: pushed only when the subject query matched,
content `subjectElements[0].textContent?.trim() || 'Email'`. -/
def subjectSecs : List GQElem → List ContentSection
  | [] => []
  | e :: _ =>
    [{ heading := some "Subject", content := jsOrS (e.textContent.map jsTrimS) "Email",
       importance := 10 }]

/-- Sender shown for the `index`-th message body:
`senderElement?.textContent?.trim() || 'Sender {index+1}'`. -/
def senderOf (e : GBodyElem) (index : Nat) : String :=
  jsOrS ((e.senderEl.bind (·.textContent)).map jsTrimS) ("Sender " ++ toString (index + 1))

/-- Per-message sections of gmail methods 1 and 2 (importance 9): heading
`Email from {sender}`, content `element.textContent?.trim() || ''`. -/
def bodySecs (imp : Int) (l : List GBodyElem) : List ContentSection :=
  l.enum.map fun p =>
    { heading := some ("Email from " ++ senderOf p.2 p.1),
      content := jsOrS (p.2.textContent.map jsTrimS) "",
      importance := imp }

/-- JS truthiness of `el.textContent?.trim()`. -/
def tcTruthy (o : Option String) : Bool :=
  match o with
  | none => false
  | some s => !(jsTrimS s == "")

/-- Gmail method 3: visible list items with non-blank text become
`Email Content {n}` sections at importance 8. -/
def visSecs (l : List GListItem) : List ContentSection :=
  ((l.filter fun el => 0 < el.offsetHeight && 0 < el.offsetWidth && tcTruthy el.textContent).enum).map
    fun p =>
      { heading := some ("Email Content " ++ toString (p.1 + 1)),
        content := jsOrS (p.2.textContent.map jsTrimS) "",
        importance := 8 }

/-- The `[role="main"]` last-resort section (importance 7), pushed only when
the element exists. -/
def mainSecs : Option GQElem → List ContentSection
  | none => []
  | some m =>
    [{ heading := some "Email Content", content := jsOrS (m.textContent.map jsTrimS) "",
       importance := 7 }]

/-- One inbox-listing line for the row at position `index`:
`"{index+1}. From: {sender} - Subject: {subject}"`, with ` - {snippet}` when
the snippet is non-blank; empty when the sender or subject is blank. -/
def rowLine (index : Nat) (r : GRow) : String :=
  let sender := optElTextOrEmpty r.senderEl
  let subject := optElTextOrEmpty r.subjectEl
  let snippet := optElTextOrEmpty r.snippetEl
  if sender ≠ "" ∧ subject ≠ "" then
    toString (index + 1) ++ ". From: " ++ sender ++ " - Subject: " ++ subject
      ++ (if snippet ≠ "" then " - " ++ snippet else "") ++ "\n"
  else ""

/-- The `forEach` building `emailListContent`: every row is visited with its
index, but only indices below 20 contribute. -/
def buildGo : Nat → List GRow → String
  | _, [] => ""
  | index, r :: rs => (if index < 20 then rowLine index r else "") ++ buildGo (index + 1) rs

/-- `emailListContent` built from the inbox rows. -/
def buildListing (rows : List GRow) : String :=
  buildGo 0 rows

/-- The inbox-listing section: present only when more than 5 rows exist and
the built listing is non-empty. -/
def inboxSecs (rows : List GRow) : List ContentSection :=
  if rows.length > 5 then
    (if buildListing rows ≠ "" then
      [{ heading := some "Inbox Emails", content := buildListing rows, importance := 6 }]
    else [])
  else []

/-- The full page state an extraction call reads: location, `document.title`,
the meta tags consulted by `extractMetadata`, the body tree,
`document.body.innerText` (rendered text, an independent input since it
depends on layout), and the gmail-specific query results. -/
structure Page where
  hostname : String
  title : String
  url : String
  ogSiteName : Option String
  appName : Option String
  metaDesc : Option String
  ogDesc : Option String
  body : Dom
  bodyInnerText : String
  gmailQ : GmailQueries

/-- Does the second list start with the first? -/
def startsWith : List Char → List Char → Bool
  | [], _ => true
  | _ :: _, [] => false
  | a :: as, b :: bs => a == b && startsWith as bs

/-- Is the first list a contiguous sublist of the second (JavaScript
`String.prototype.includes`)? -/
def containsSub (pat : List Char) : List Char → Bool
  | [] => startsWith pat []
  | c :: t => startsWith pat (c :: t) || containsSub pat t

/-- `window.location.hostname.includes('mail.google.com')`. -/
def isGmailHost (p : Page) : Bool :=
  containsSub "mail.google.com".data p.hostname.data

/-- Tail of `extractGmailContent` from the inbox-rows query on: the query may
throw (error carries the sections accumulated so far, since the `catch`
handler sees the same mutable `sections` array). -/
def afterMain (p : Page) (acc : List ContentSection) :
    Except (List ContentSection) (List ContentSection) :=
  match p.gmailQ.emailListItems with
  | .error _ => .error acc
  | .ok rows => .ok (acc ++ inboxSecs rows)

/-- Tail of `extractGmailContent` from the `sections.length <= 1` check on. -/
def afterBodies (p : Page) (acc : List ContentSection) :
    Except (List ContentSection) (List ContentSection) :=
  if acc.length ≤ 1 then
    match p.gmailQ.mainElement with
    | .error _ => .error acc
    | .ok me => afterMain p (acc ++ mainSecs me)
  else afterMain p acc

/-- The `try` block of `extractGmailContent`: subject, then method 1 / 2 / 3
for message bodies, the `[role="main"]` fallback, and the inbox listing.
`.error acc` is a thrown exception with `acc` the sections pushed so far. -/
def gmailRun (p : Page) : Except (List ContentSection) (List ContentSection) :=
  match p.gmailQ.subjectElements with
  | .error _ => .error []
  | .ok ses =>
    match p.gmailQ.emailBodyElements with
    | .error _ => .error (subjectSecs ses)
    | .ok ebs =>
      if ebs.length > 0 then afterBodies p (subjectSecs ses ++ bodySecs 9 ebs)
      else
        match p.gmailQ.alternativeEmailBodies with
        | .error _ => .error (subjectSecs ses)
        | .ok alts =>
          if alts.length > 0 then afterBodies p (subjectSecs ses ++ bodySecs 9 alts)
          else
            match p.gmailQ.visibleEmailContent with
            | .error _ => .error (subjectSecs ses)
            | .ok vis => afterBodies p (subjectSecs ses ++ visSecs vis)

/-- `extractGmailContent` of `contentExtractor.ts`: run the `try` block; the
`catch` handler pushes one `document.body.innerText` section at importance 5
onto the (partially filled) `sections` array. -/
def extractGmailContent (p : Page) : List ContentSection :=
  match gmailRun p with
  | .ok secs => secs
  | .error acc => acc ++ [{ heading := none, content := p.bodyInnerText, importance := 5 }]

/-- The ordered main-content selector list of `extractContentSections`. -/
def contentSelectors : List Sel :=
  [.tag "article", .tag "main", .cls "main-content", .idSel "content",
   .cls "article", .cls "post", .cls "entry-content",
   .cls "content", .idSel "main", .tag "section"]

/-- Does the first node of the chain match the selector? -/
def nodeMatches (s : Sel) : Dom → Bool
  | .elemN t i c _ _ => matchesSel s t i c
  | _ => false

/-- `document.querySelectorAll(sel)`: search the body element and its
descendants (the head holds no content elements and is omitted from the
model). -/
def qsaDoc (s : Sel) (p : Page) : List Dom :=
  (if nodeMatches s p.body then [p.body] else []) ++ collectElems (matchesSel s) (childOf p.body)

/-- The selector loop: first selector with a non-empty result wins. -/
def firstMatch : List Sel → Page → List Dom
  | [], _ => []
  | s :: ss, p => if (qsaDoc s p).length > 0 then qsaDoc s p else firstMatch ss p

/-- Is the element one the body-clone fallback removes (`nav`, `header`,
`footer`, the listed classes, or `#sidebar`)? -/
def excludedNode (t : String) (idv : Option String) (cls : List String) : Bool :=
  t == "nav" || t == "header" || t == "footer"
    || cls.contains "nav" || cls.contains "navigation" || cls.contains "menu"
    || cls.contains "footer" || cls.contains "sidebar" || cls.contains "comments"
    || cls.contains "ad" || cls.contains "advertisement" || cls.contains "social"
    || cls.contains "related" || idv == some "sidebar"

/-- Remove every excluded element (with its subtree) from a forest.  The code
removes the matches of each exclude selector in turn from the cloned body;
since removal of all matches of one selector commutes with the others, the
net effect is the removal of every element matching any exclude selector. -/
def excise : Dom → Dom
  | .nil => .nil
  | .textN s next => .textN s (excise next)
  | .elemN t i c child next =>
    if excludedNode t i c then excise next
    else .elemN t i c (excise child) (excise next)

/-- The `sections` local of `extractContentSections` before the word-count
check: sections of the matched main-content containers, or of the
exclusion-filtered body clone when no selector matched. -/
def baseSections (p : Page) : List ContentSection :=
  if (firstMatch contentSelectors p).length > 0 then
    (firstMatch contentSelectors p).flatMap processContentElement
  else processContentElement (Dom.elemN "div" none [] (excise (childOf p.body)) Dom.nil)

/-- `extractContentSections` of `contentExtractor.ts`: process the matched
main-content containers (or the exclusion-filtered body clone), then append
the whole-page fallback section when the combined word count is below 100. -/
def extractContentSections (p : Page) : List ContentSection :=
  if countWords (combineContentSections (baseSections p)) < 100 then
    baseSections p ++ [{ heading := none, content := p.bodyInnerText, importance := 5 }]
  else baseSections p

/-- `extractMetadata` of `contentExtractor.ts`: title and URL, site name from
`og:site_name` / `application-name` / the URL's host (always a string, so
the `typeof` guard always passes), description from the description /
`og:description` meta tags (`undefined` when empty). -/
def extractMetadata (p : Page) : PageMetadata :=
  { title := p.title
    url := p.url
    siteName := some (jsOrS p.ogSiteName (jsOrS p.appName p.hostname))
    description :=
      (if jsOrS p.metaDesc (jsOrS p.ogDesc "") = "" then none
       else some (jsOrS p.metaDesc (jsOrS p.ogDesc ""))) }

/-- `extractContent` of `contentExtractor.ts`: metadata, gmail or generic
sections depending on the hostname, combined main content, and its word
count. -/
def extractContent (p : Page) : ExtractedContent :=
  if isGmailHost p then
    { metadata := extractMetadata p
      mainContent := combineContentSections (extractGmailContent p)
      sections := extractGmailContent p
      wordCount := countWords (combineContentSections (extractGmailContent p)) }
  else
    { metadata := extractMetadata p
      mainContent := combineContentSections (extractContentSections p)
      sections := extractContentSections p
      wordCount := countWords (combineContentSections (extractContentSections p)) }

/-- Gmail query results for a page where every query succeeds and finds
nothing. -/
def okEmptyQueries : GmailQueries :=
  { subjectElements := .ok [], emailBodyElements := .ok [],
    alternativeEmailBodies := .ok [], visibleEmailContent := .ok [],
    mainElement := .ok none, emailListItems := .ok [] }

/-- A non-gmail page whose main content is `<article><h1>Title</h1>
<p>Body text.</p></article>` — the scenario of the spec's C5 claim. -/
def genPage5 : Page :=
  { hostname := "example.com", title := "Example", url := "https://example.com/"
    ogSiteName := none, appName := none, metaDesc := none, ogDesc := none
    body :=
      .elemN "body" none []
        (.elemN "article" none []
          (.elemN "h1" none [] (.textN "Title" .nil)
            (.elemN "p" none [] (.textN "Body text." .nil) .nil))
          .nil)
        .nil
    bodyInnerText := "Title\nBody text."
    gmailQ := okEmptyQueries }

/-- A non-gmail page whose sections are emitted in non-descending importance
order (an `h3` before an `h1`), so the emission order differs from the
importance-sorted order. -/
def demoPage : Page :=
  { hostname := "example.com", title := "Demo", url := "https://example.com/demo"
    ogSiteName := none, appName := none, metaDesc := none, ogDesc := none
    body :=
      .elemN "body" none []
        (.elemN "article" none []
          (.elemN "h3" none [] (.textN "A" .nil)
            (.elemN "p" none [] (.textN "x" .nil)
              (.elemN "h1" none [] (.textN "B" .nil)
                (.elemN "p" none [] (.textN "y" .nil) .nil))))
          .nil)
        .nil
    bodyInnerText := "A x B y"
    gmailQ := okEmptyQueries }

/-- A gmail page where the subject query succeeds (finding `Hello`) and the
message-body query then throws. -/
def gmailErrPage : Page :=
  { hostname := "mail.google.com", title := "Inbox", url := "https://mail.google.com/"
    ogSiteName := none, appName := none, metaDesc := none, ogDesc := none
    body := .nil
    bodyInnerText := "Full body text"
    gmailQ :=
      { subjectElements := .ok [⟨some "Hello"⟩], emailBodyElements := .error ()
        alternativeEmailBodies := .ok [], visibleEmailContent := .ok []
        mainElement := .ok none, emailListItems := .ok [] } }

/-- An inbox row without sender, subject or snippet elements. -/
def emptyRow : GRow := ⟨none, none, none⟩

/-- Six inbox rows, none of which has a sender or subject. -/
def c7cexRows : List GRow := List.replicate 6 emptyRow

/-- A gmail inbox page with more than 5 rows, all lacking sender and
subject. -/
def c7cexPage : Page :=
  { hostname := "mail.google.com", title := "Inbox", url := "https://mail.google.com/"
    ogSiteName := none, appName := none, metaDesc := none, ogDesc := none
    body := .nil
    bodyInnerText := "inbox body"
    gmailQ :=
      { subjectElements := .ok [], emailBodyElements := .ok []
        alternativeEmailBodies := .ok [], visibleEmailContent := .ok []
        mainElement := .ok none, emailListItems := .ok c7cexRows } }

/-- Six inbox rows of which only the first has both a sender and a
subject. -/
def c7rows : List GRow := ⟨some ⟨some "A"⟩, some ⟨some "B"⟩, none⟩ :: List.replicate 5 emptyRow

/-- A gmail inbox page with the rows of `c7rows` and no other content. -/
def c7page : Page :=
  { hostname := "mail.google.com", title := "Inbox", url := "https://mail.google.com/"
    ogSiteName := none, appName := none, metaDesc := none, ogDesc := none
    body := .nil
    bodyInnerText := "inbox body"
    gmailQ :=
      { subjectElements := .ok [], emailBodyElements := .ok []
        alternativeEmailBodies := .ok [], visibleEmailContent := .ok []
        mainElement := .ok none, emailListItems := .ok c7rows } }

/-- The sections `gmailRun` produces on `c7page`. -/
def c7secs : List ContentSection :=
  [{ heading := some "Inbox Emails", content := "1. From: A - Subject: B\n", importance := 6 }]

/-- An extracted content whose main content alone exceeds the 8000-character
budget (with a short metadata preamble). -/
def bigEc : ExtractedContent :=
  { metadata := ⟨"T", "U", none, none⟩
    mainContent := String.mk (List.replicate 9000 'a')
    sections := []
    wordCount := 1 }

/-- An extracted content whose 9000-character title makes the metadata
preamble alone exceed the 8000-character budget. -/
def hugeTitleEc : ExtractedContent :=
  { metadata := ⟨String.mk (List.replicate 9000 't'), "u", none, none⟩
    mainContent := "m"
    sections := []
    wordCount := 1 }

-- ===== Theorems =====

/-- C8: `isElementVisible` returns true iff the computed style has
`display ≠ none`, `visibility ≠ hidden`, `opacity ≠ "0"`, and both offset
dimensions are nonzero; in particular it returns false whenever `display` is
`none` or either offset dimension is zero. -/
theorem isElementVisible_iff (e : VisElem) :
    (isElementVisible e = true ↔
      (e.display ≠ "none" ∧ e.visibility ≠ "hidden" ∧ e.opacity ≠ "0"
        ∧ e.offsetWidth ≠ 0 ∧ e.offsetHeight ≠ 0))
    ∧ (e.display = "none" → isElementVisible e = false)
    ∧ (e.offsetWidth = 0 → isElementVisible e = false)
    ∧ (e.offsetHeight = 0 → isElementVisible e = false) := by
  refine ⟨?_, ?_, ?_, ?_⟩
  · simp [isElementVisible]
    tauto
  all_goals intro h
  all_goals simp [isElementVisible, h]

theorem isElementVisible_iff_witness :
    (isElementVisible ⟨"block", "visible", "1", 10, 20⟩ = true ↔
      (("block" : String) ≠ "none" ∧ ("visible" : String) ≠ "hidden"
        ∧ ("1" : String) ≠ "0" ∧ (10 : Nat) ≠ 0 ∧ (20 : Nat) ≠ 0))
    ∧ (("block" : String) = "none" → isElementVisible ⟨"block", "visible", "1", 10, 20⟩ = false)
    ∧ ((10 : Nat) = 0 → isElementVisible ⟨"block", "visible", "1", 10, 20⟩ = false)
    ∧ ((20 : Nat) = 0 → isElementVisible ⟨"block", "visible", "1", 10, 20⟩ = false) :=
  isElementVisible_iff ⟨"block", "visible", "1", 10, 20⟩

theorem dataAppend (a b : String) : (a ++ b).data = a.data ++ b.data := rfl

theorem mkData (l : List Char) : (String.mk l).data = l := rfl

theorem mem_insertDesc {x s : ContentSection} {l : List ContentSection} :
    x ∈ insertDesc s l ↔ x = s ∨ x ∈ l := by
  induction l with
  | nil => simp [insertDesc]
  | cons t ts ih =>
    by_cases hc : t.importance ≤ s.importance
    · simp [insertDesc, hc]
    · simp [insertDesc, hc, ih]
      tauto

theorem pairwise_insertDesc {s : ContentSection} {l : List ContentSection}
    (h : l.Pairwise (fun a b => b.importance ≤ a.importance)) :
    (insertDesc s l).Pairwise (fun a b => b.importance ≤ a.importance) := by
  induction l with
  | nil => simp [insertDesc]
  | cons t ts ih =>
    rw [List.pairwise_cons] at h
    by_cases hc : t.importance ≤ s.importance
    · simp only [insertDesc, hc, if_true]
      refine List.Pairwise.cons ?_ (List.Pairwise.cons h.1 h.2)
      intro x hx
      rcases List.mem_cons.mp hx with rfl | hx
      · exact hc
      · exact le_trans (h.1 x hx) hc
    · simp only [insertDesc, hc, if_false]
      refine List.Pairwise.cons ?_ (ih h.2)
      intro x hx
      rcases mem_insertDesc.mp hx with rfl | hx
      · exact le_of_lt (lt_of_not_le hc)
      · exact h.1 x hx

theorem sortSections_sorted (l : List ContentSection) :
    (sortSections l).Pairwise (fun a b => b.importance ≤ a.importance) := by
  induction l with
  | nil => simp [sortSections]
  | cons s ss ih => exact pairwise_insertDesc ih

theorem filter_insertDesc (k : Int) (s : ContentSection) (l : List ContentSection) :
    (insertDesc s l).filter (fun t => t.importance == k)
      = if s.importance == k then s :: l.filter (fun t => t.importance == k)
        else l.filter (fun t => t.importance == k) := by
  induction l with
  | nil =>
    by_cases hsk : s.importance = k
    · simp [insertDesc, List.filter_cons, hsk]
    · simp [insertDesc, List.filter_cons, hsk]
  | cons t ts ih =>
    by_cases hc : t.importance ≤ s.importance
    · simp [insertDesc, hc, List.filter_cons]
    · have hstep : insertDesc s (t :: ts) = t :: insertDesc s ts := by
        simp [insertDesc, hc]
      rw [hstep, List.filter_cons, ih]
      by_cases hsk : s.importance = k
      · have htk : ¬ t.importance = k := fun h0 => hc (le_of_eq (h0.trans hsk.symm))
        simp [List.filter_cons, hsk, htk]
      · simp [List.filter_cons, hsk]

theorem sortSections_stable (l : List ContentSection) (k : Int) :
    (sortSections l).filter (fun t => t.importance == k)
      = l.filter (fun t => t.importance == k) := by
  induction l with
  | nil => rfl
  | cons s ss ih =>
    rw [show sortSections (s :: ss) = insertDesc s (sortSections ss) from rfl,
      filter_insertDesc, ih]
    by_cases hsk : s.importance = k
    · simp [List.filter_cons, hsk]
    · simp [List.filter_cons, hsk]

theorem insertDesc_perm (s : ContentSection) (l : List ContentSection) :
    List.Perm (insertDesc s l) (s :: l) := by
  induction l with
  | nil => exact List.Perm.refl _
  | cons t ts ih =>
    by_cases hc : t.importance ≤ s.importance
    · simp [insertDesc, hc]
    · simp only [insertDesc, hc, if_false]
      exact List.Perm.trans (List.Perm.cons t ih) (List.Perm.swap s t ts)

theorem sortSections_perm (l : List ContentSection) : List.Perm (sortSections l) l := by
  induction l with
  | nil => exact List.Perm.refl _
  | cons s ss ih =>
    exact List.Perm.trans (insertDesc_perm s (sortSections ss)) (List.Perm.cons s ih)

/-- C3: `combineContentSections` renders the sections in stable descending
importance order: the sorted list it renders is sorted by importance
descending, keeps the relative input order of equally important sections,
and is a permutation of the input. -/
theorem combineContentSections_stable_sort (l : List ContentSection) :
    combineContentSections l = jsTrimS (renderSections (sortSections l))
    ∧ (sortSections l).Pairwise (fun a b => b.importance ≤ a.importance)
    ∧ (∀ k : Int, (sortSections l).filter (fun s => s.importance == k)
        = l.filter (fun s => s.importance == k))
    ∧ List.Perm (sortSections l) l :=
  ⟨rfl, sortSections_sorted l, sortSections_stable l, sortSections_perm l⟩

/-- C4: when the formatted string exceeds 8000 characters it is replaced by
exactly its first 8000 characters with the truncation marker appended; hence
the output never exceeds 8000 plus the marker's length, and a truncated
output ends with exactly the marker. -/
theorem formatContentForChatGPT_truncation (ec : ExtractedContent) :
    (formatContentForChatGPT ec).data.length ≤ 8000 + (truncMarker ec.wordCount).data.length
    ∧ (8000 < (rawFormatted ec).data.length →
        formatContentForChatGPT ec
          = String.mk ((rawFormatted ec).data.take 8000) ++ truncMarker ec.wordCount
        ∧ ∃ t, t ++ (truncMarker ec.wordCount).data = (formatContentForChatGPT ec).data) := by
  by_cases h : 8000 < (rawFormatted ec).data.length
  · have hfc : formatContentForChatGPT ec
        = String.mk ((rawFormatted ec).data.take 8000) ++ truncMarker ec.wordCount := by
      unfold formatContentForChatGPT
      rw [if_pos h]
    constructor
    · rw [hfc, dataAppend, mkData, List.length_append]
      have ht : ((rawFormatted ec).data.take 8000).length ≤ 8000 := by
        rw [List.length_take]
        exact min_le_left _ _
      omega
    · intro _
      refine ⟨hfc, ⟨(rawFormatted ec).data.take 8000, ?_⟩⟩
      rw [hfc, dataAppend, mkData]
  · have hfc : formatContentForChatGPT ec = rawFormatted ec := by
      unfold formatContentForChatGPT
      rw [if_neg h]
    constructor
    · rw [hfc]
      omega
    · intro h2
      exact absurd h2 h

theorem bigEc_raw_long : 8000 < (rawFormatted bigEc).data.length := by
  have hm : bigEc.mainContent.length = 9000 := List.length_replicate 9000 'a'
  have hsplit : (rawFormatted bigEc).length = (preF bigEc).length + bigEc.mainContent.length := by
    rw [show rawFormatted bigEc = preF bigEc ++ bigEc.mainContent from rfl,
      String.length_append]
  show 8000 < (rawFormatted bigEc).length
  omega

theorem formatContentForChatGPT_truncation_witness :
    8000 < (rawFormatted bigEc).data.length
    ∧ (formatContentForChatGPT bigEc
        = String.mk ((rawFormatted bigEc).data.take 8000) ++ truncMarker bigEc.wordCount
       ∧ ∃ t, t ++ (truncMarker bigEc.wordCount).data = (formatContentForChatGPT bigEc).data) :=
  ⟨bigEc_raw_long, (formatContentForChatGPT_truncation bigEc).2 bigEc_raw_long⟩

/-- C6 (amended): the truncation of an over-budget formatted string keeps
the metadata preamble intact whenever the preamble itself fits the
8000-character budget; the original claim fails when the preamble alone
exceeds the budget (see the counterexample). -/
theorem truncation_preserves_preamble_of_fits (ec : ExtractedContent)
    (hpre : (preF ec).data.length ≤ 8000)
    (hlong : 8000 < (rawFormatted ec).data.length) :
    ∃ rest, (formatContentForChatGPT ec).data = (preF ec).data ++ rest := by
  refine ⟨ec.mainContent.data.take (8000 - (preF ec).data.length)
    ++ (truncMarker ec.wordCount).data, ?_⟩
  have hout : (formatContentForChatGPT ec).data
      = (rawFormatted ec).data.take 8000 ++ (truncMarker ec.wordCount).data := by
    unfold formatContentForChatGPT
    rw [if_pos hlong, dataAppend, mkData]
  rw [hout, show (rawFormatted ec).data = (preF ec).data ++ ec.mainContent.data from rfl,
    List.take_append_eq_append_take, List.take_of_length_le hpre, List.append_assoc]

theorem truncation_preserves_preamble_witness :
    (preF bigEc).data.length ≤ 8000
    ∧ 8000 < (rawFormatted bigEc).data.length
    ∧ ∃ rest, (formatContentForChatGPT bigEc).data = (preF bigEc).data ++ rest :=
  ⟨by decide, bigEc_raw_long,
    truncation_preserves_preamble_of_fits bigEc (by decide) bigEc_raw_long⟩

/-- C6 counterexample: with a 9000-character title the formatted string
exceeds the budget, yet the truncated output does not contain the metadata
preamble intact (the truncation cuts into the preamble itself). -/
theorem truncation_preamble_cex :
    8000 < (rawFormatted hugeTitleEc).data.length
    ∧ ¬ ∃ rest, (formatContentForChatGPT hugeTitleEc).data = (preF hugeTitleEc).data ++ rest := by
  have ht : hugeTitleEc.metadata.title.length = 9000 := List.length_replicate 9000 't'
  have hpre : 9000 ≤ (preF hugeTitleEc).length := by
    rw [show preF hugeTitleEc
        = "PAGE INFORMATION:\n" ++ "Title: " ++ hugeTitleEc.metadata.title ++ "\n"
          ++ "URL: " ++ hugeTitleEc.metadata.url ++ "\n" ++ "" ++ "" ++ "\n"
          ++ "PAGE CONTENT (" ++ toString hugeTitleEc.wordCount ++ " words):\n\n" from rfl]
    simp only [String.length_append]
    omega
  have hraw : 8000 < (rawFormatted hugeTitleEc).length := by
    rw [show rawFormatted hugeTitleEc = preF hugeTitleEc ++ hugeTitleEc.mainContent from rfl,
      String.length_append]
    omega
  have hraw2 : 8000 < (rawFormatted hugeTitleEc).data.length := hraw
  refine ⟨hraw2, ?_⟩
  rintro ⟨rest, hr⟩
  have hout : (formatContentForChatGPT hugeTitleEc).data
      = (rawFormatted hugeTitleEc).data.take 8000 ++ (truncMarker 1).data := by
    unfold formatContentForChatGPT
    rw [if_pos hraw2, dataAppend, mkData]
    rfl
  have hb : (rawFormatted hugeTitleEc).data.length = (rawFormatted hugeTitleEc).length := rfl
  have hlen : (formatContentForChatGPT hugeTitleEc).data.length = 8000 + 58 := by
    rw [hout, List.length_append, List.length_take]
    have h2 : (truncMarker 1).data.length = 58 := by decide
    omega
  have hlr := congrArg List.length hr
  rw [List.length_append] at hlr
  have hb2 : (preF hugeTitleEc).data.length = (preF hugeTitleEc).length := rfl
  omega

/-- C1 (amended): when an exception is thrown inside `extractGmailContent`'s
`try` block, the `catch` handler appends one fallback section holding
`document.body.innerText` at importance 5 to the sections accumulated so far
— it does not discard them; the result is a single section only when the
exception occurred before anything was accumulated. -/
theorem gmailCatch_appends_fallback (p : Page) (acc : List ContentSection)
    (h : gmailRun p = Except.error acc) :
    extractGmailContent p
      = acc ++ [{ heading := none, content := p.bodyInnerText, importance := 5 }] := by
  unfold extractGmailContent
  rw [h]

theorem gmailCatch_appends_fallback_witness :
    extractGmailContent gmailErrPage
      = [{ heading := some "Subject", content := "Hello", importance := 10 }]
        ++ [{ heading := none, content := "Full body text", importance := 5 }] :=
  gmailCatch_appends_fallback gmailErrPage
    [{ heading := some "Subject", content := "Hello", importance := 10 }] rfl

/-- C1 counterexample: on a page where the subject query succeeds and the
message-body query throws, `extractGmailContent` returns the partially
accumulated subject section followed by the fallback section — two sections,
not the single full-body section the claim requires. -/
theorem gmailCatch_keeps_partial_sections_cex :
    gmailRun gmailErrPage
      = Except.error [{ heading := some "Subject", content := "Hello", importance := 10 }]
    ∧ extractGmailContent gmailErrPage
      = [{ heading := some "Subject", content := "Hello", importance := 10 },
         { heading := none, content := "Full body text", importance := 5 }]
    ∧ (extractGmailContent gmailErrPage).length ≠ 1 := by
  refine ⟨rfl, rfl, by decide⟩

theorem subjectSecs_imp (ses : List GQElem) : ∀ s ∈ subjectSecs ses, s.importance = 10 := by
  intro s hs
  cases ses with
  | nil => simp [subjectSecs] at hs
  | cons e es =>
    simp only [subjectSecs, List.mem_singleton] at hs
    subst hs
    rfl

theorem bodySecs_imp (imp : Int) (l : List GBodyElem) :
    ∀ s ∈ bodySecs imp l, s.importance = imp := by
  intro s hs
  simp only [bodySecs, List.mem_map] at hs
  obtain ⟨q, _, rfl⟩ := hs
  rfl

theorem visSecs_imp (l : List GListItem) : ∀ s ∈ visSecs l, s.importance = 8 := by
  intro s hs
  simp only [visSecs, List.mem_map] at hs
  obtain ⟨q, _, rfl⟩ := hs
  rfl

theorem mainSecs_imp (me : Option GQElem) : ∀ s ∈ mainSecs me, s.importance = 7 := by
  intro s hs
  cases me with
  | none => simp [mainSecs] at hs
  | some m =>
    simp only [mainSecs, List.mem_singleton] at hs
    subst hs
    rfl

theorem inboxSecs_imp (rows : List GRow) : ∀ s ∈ inboxSecs rows, s.importance = 6 := by
  intro s hs
  unfold inboxSecs at hs
  by_cases h5 : rows.length > 5
  · rw [if_pos h5] at hs
    by_cases hL : buildListing rows ≠ ""
    · rw [if_pos hL] at hs
      simp only [List.mem_singleton] at hs
      subst hs
      rfl
    · rw [if_neg hL] at hs
      simp at hs
  · rw [if_neg h5] at hs
    simp at hs

theorem afterMain_ok {p : Page} {acc secs : List ContentSection} {rows : List GRow}
    (hrows : p.gmailQ.emailListItems = Except.ok rows)
    (h : afterMain p acc = Except.ok secs) : secs = acc ++ inboxSecs rows := by
  unfold afterMain at h
  rw [hrows] at h
  exact (Except.ok.inj h).symm

theorem afterMain_error {p : Page} {acc acc' : List ContentSection}
    (h : afterMain p acc = Except.error acc') : acc' = acc := by
  unfold afterMain at h
  cases hq : p.gmailQ.emailListItems with
  | error e => rw [hq] at h; exact (Except.error.inj h).symm
  | ok rows => rw [hq] at h; simp at h

theorem afterBodies_ok {p : Page} {acc secs : List ContentSection} {rows : List GRow}
    (hrows : p.gmailQ.emailListItems = Except.ok rows)
    (h : afterBodies p acc = Except.ok secs) :
    ∃ acc2, secs = acc2 ++ inboxSecs rows
      ∧ (acc2 = acc ∨ ∃ me, acc2 = acc ++ mainSecs me) := by
  unfold afterBodies at h
  by_cases hl : acc.length ≤ 1
  · rw [if_pos hl] at h
    cases hq : p.gmailQ.mainElement with
    | error e => rw [hq] at h; simp at h
    | ok me => rw [hq] at h; exact ⟨acc ++ mainSecs me, afterMain_ok hrows h, Or.inr ⟨me, rfl⟩⟩
  · rw [if_neg hl] at h
    exact ⟨acc, afterMain_ok hrows h, Or.inl rfl⟩

theorem afterBodies_error {p : Page} {acc acc' : List ContentSection}
    (h : afterBodies p acc = Except.error acc') :
    acc' = acc ∨ ∃ me, acc' = acc ++ mainSecs me := by
  unfold afterBodies at h
  by_cases hl : acc.length ≤ 1
  · rw [if_pos hl] at h
    cases hq : p.gmailQ.mainElement with
    | error e => rw [hq] at h; exact Or.inl (Except.error.inj h).symm
    | ok me => rw [hq] at h; exact Or.inr ⟨me, afterMain_error h⟩
  · rw [if_neg hl] at h
    exact Or.inl (afterMain_error h)

theorem accMainImp {ses : List GQElem} {mid acc2 : List ContentSection}
    (hmid : ∀ s ∈ mid, s.importance = 9 ∨ s.importance = 8)
    (hacc : acc2 = subjectSecs ses ++ mid ∨ ∃ me, acc2 = (subjectSecs ses ++ mid) ++ mainSecs me) :
    ∀ s ∈ acc2,
      s.importance = 10 ∨ s.importance = 9 ∨ s.importance = 8 ∨ s.importance = 7 := by
  intro s hs
  rcases hacc with rfl | ⟨me, rfl⟩
  · rcases List.mem_append.mp hs with h1 | h2
    · exact Or.inl (subjectSecs_imp ses s h1)
    · rcases hmid s h2 with h9 | h8
      · exact Or.inr (Or.inl h9)
      · exact Or.inr (Or.inr (Or.inl h8))
  · rcases List.mem_append.mp hs with h12 | h3
    · rcases List.mem_append.mp h12 with h1 | h2
      · exact Or.inl (subjectSecs_imp ses s h1)
      · rcases hmid s h2 with h9 | h8
        · exact Or.inr (Or.inl h9)
        · exact Or.inr (Or.inr (Or.inl h8))
    · exact Or.inr (Or.inr (Or.inr (mainSecs_imp me s h3)))

theorem gmailRun_ok_decomp {p : Page} {secs : List ContentSection} {rows : List GRow}
    (hrows : p.gmailQ.emailListItems = Except.ok rows)
    (h : gmailRun p = Except.ok secs) :
    ∃ acc, secs = acc ++ inboxSecs rows
      ∧ ∀ s ∈ acc,
          s.importance = 10 ∨ s.importance = 9 ∨ s.importance = 8 ∨ s.importance = 7 := by
  unfold gmailRun at h
  split at h
  · simp at h
  · split at h
    · simp at h
    · split at h
      · obtain ⟨acc2, hsecs, hacc⟩ := afterBodies_ok hrows h
        exact ⟨acc2, hsecs, accMainImp (fun s hs => Or.inl (bodySecs_imp 9 _ s hs)) hacc⟩
      · split at h
        · simp at h
        · split at h
          · obtain ⟨acc2, hsecs, hacc⟩ := afterBodies_ok hrows h
            exact ⟨acc2, hsecs, accMainImp (fun s hs => Or.inl (bodySecs_imp 9 _ s hs)) hacc⟩
          · split at h
            · simp at h
            · obtain ⟨acc2, hsecs, hacc⟩ := afterBodies_ok hrows h
              exact ⟨acc2, hsecs, accMainImp (fun s hs => Or.inr (visSecs_imp _ s hs)) hacc⟩

theorem gmailRun_error_decomp {p : Page} {acc : List ContentSection}
    (h : gmailRun p = Except.error acc) :
    ∀ s ∈ acc,
      s.importance = 10 ∨ s.importance = 9 ∨ s.importance = 8 ∨ s.importance = 7 := by
  unfold gmailRun at h
  split at h
  · rw [(Except.error.inj h).symm]
    intro s hs
    simp at hs
  · split at h
    · rw [(Except.error.inj h).symm]
      intro s hs
      exact Or.inl (subjectSecs_imp _ s hs)
    · split at h
      · exact accMainImp (fun s hs => Or.inl (bodySecs_imp 9 _ s hs)) (afterBodies_error h)
      · split at h
        · rw [(Except.error.inj h).symm]
          intro s hs
          exact Or.inl (subjectSecs_imp _ s hs)
        · split at h
          · exact accMainImp (fun s hs => Or.inl (bodySecs_imp 9 _ s hs)) (afterBodies_error h)
          · split at h
            · rw [(Except.error.inj h).symm]
              intro s hs
              exact Or.inl (subjectSecs_imp _ s hs)
            · exact accMainImp (fun s hs => Or.inr (visSecs_imp _ s hs)) (afterBodies_error h)

theorem buildGo_ge20 (rows : List GRow) : ∀ i, 20 ≤ i → buildGo i rows = "" := by
  induction rows with
  | nil => intro i _; rfl
  | cons r rs ih =>
    intro i hi
    unfold buildGo
    rw [if_neg (by omega), ih (i + 1) (by omega)]
    rfl

theorem buildGo_take (rows : List GRow) : ∀ i, buildGo i rows = buildGo i (rows.take (20 - i)) := by
  induction rows with
  | nil => intro i; rw [List.take_nil]
  | cons r rs ih =>
    intro i
    by_cases hi : i < 20
    · rw [show 20 - i = (20 - (i + 1)) + 1 from by omega, List.take_succ_cons]
      unfold buildGo
      rw [ih (i + 1)]
    · rw [show 20 - i = 0 from by omega, List.take_zero,
        buildGo_ge20 (r :: rs) i (by omega)]
      rfl

theorem buildListing_take (rows : List GRow) : buildListing rows = buildListing (rows.take 20) := by
  unfold buildListing
  have h := buildGo_take rows 0
  simpa using h

/-- C7 (amended): with more than 5 inbox rows and no exception, the
importance-6 sections of the result are exactly one `Inbox Emails` section
holding the listing built from the rows — provided that listing is non-empty
(at least one of the first 20 rows has both a sender and a subject);
otherwise no importance-6 section is produced.  The listing depends only on
the first 20 rows. -/
theorem inbox_listing_amended (p : Page) (rows : List GRow) (secs : List ContentSection)
    (hrows : p.gmailQ.emailListItems = Except.ok rows)
    (hlen : 5 < rows.length)
    (hok : gmailRun p = Except.ok secs) :
    secs.filter (fun s => s.importance == 6)
      = (if buildListing rows = "" then []
         else [{ heading := some "Inbox Emails", content := buildListing rows,
                 importance := 6 }])
    ∧ buildListing rows = buildListing (rows.take 20) := by
  obtain ⟨acc, rfl, hP⟩ := gmailRun_ok_decomp hrows hok
  refine ⟨?_, buildListing_take rows⟩
  rw [List.filter_append]
  have h1 : acc.filter (fun s => s.importance == 6) = [] := by
    rw [List.filter_eq_nil_iff]
    intro a ha
    rcases hP a ha with h | h | h | h <;> simp [h]
  rw [h1, List.nil_append]
  unfold inboxSecs
  rw [if_pos hlen]
  by_cases hL : buildListing rows = ""
  · simp [hL]
  · simp [hL]

theorem inbox_listing_amended_witness :
    c7secs.filter (fun s => s.importance == 6)
      = (if buildListing c7rows = "" then []
         else [{ heading := some "Inbox Emails", content := buildListing c7rows,
                 importance := 6 }])
    ∧ buildListing c7rows = buildListing (c7rows.take 20) :=
  inbox_listing_amended c7page c7rows c7secs rfl (by decide) rfl

/-- C7 counterexample: a page with 6 inbox rows — more than 5 — none of
which has a sender or subject: every row is skipped, the listing is empty,
and no importance-6 section is built, contradicting the claim that one is
always built in that situation. -/
theorem inbox_listing_cex :
    c7cexPage.gmailQ.emailListItems = Except.ok c7cexRows
    ∧ 5 < c7cexRows.length
    ∧ (extractGmailContent c7cexPage).filter (fun s => s.importance == 6) = [] :=
  ⟨rfl, by decide, by decide⟩

theorem isHeadingTag_level {t : String} (h : isHeadingTag t = true) :
    1 ≤ levelOf t ∧ levelOf t ≤ 6 := by
  unfold isHeadingTag at h
  simp only [Bool.or_eq_true, beq_iff_eq] at h
  rcases h with ((((h | h) | h) | h) | h) | h <;> subst h <;> decide

theorem collectElems_shape (pb : String → Option String → List String → Bool) :
    ∀ (d : Dom), ∀ h ∈ collectElems pb d,
      ∃ t i c ch nx, h = Dom.elemN t i c ch nx ∧ pb t i c = true := by
  intro d
  induction d with
  | nil => intro h hh; simp [collectElems] at hh
  | textN s next ih => intro h hh; exact ih h (by simpa [collectElems] using hh)
  | elemN t i c child next ihc ihn =>
    intro h hh
    simp only [collectElems, List.mem_append] at hh
    rcases hh with (hh | hh) | hh
    · by_cases hp : pb t i c
      · rw [if_pos hp] at hh
        simp only [List.mem_singleton] at hh
        exact ⟨t, i, c, child, next, hh, hp⟩
      · rw [if_neg hp] at hh
        simp at hh
    · exact ihc h hh
    · exact ihn h hh

theorem headSecOf_range {h : Dom} (hh : isHeadingTag (tagOf h) = true) :
    ∀ s ∈ headSecOf h, 1 ≤ s.importance ∧ s.importance ≤ 10 := by
  intro s hs
  unfold headSecOf at hs
  split at hs
  · simp only [List.mem_singleton] at hs
    subst hs
    have hl := isHeadingTag_level hh
    constructor
    · exact le_trans (by norm_num) (le_max_right _ 5)
    · apply max_le
      · have h1 : (1 : Int) ≤ (levelOf (tagOf h) : Int) := by exact_mod_cast hl.1
        omega
      · norm_num
  · simp at hs

theorem listSecsOf_imp (d : Dom) : ∀ s ∈ listSecsOf d, s.importance = 6 := by
  unfold listSecsOf
  generalize collectLists d = L
  induction L with
  | nil => intro s hs; simp at hs
  | cons l ls ih =>
    intro s hs
    simp only [List.foldr_cons, List.mem_append] at hs
    rcases hs with hs | hs
    · split at hs
      · simp only [List.mem_singleton] at hs
        subst hs
        rfl
      · simp at hs
    · exact ih s hs

theorem processContentElement_range (el : Dom) :
    ∀ s ∈ processContentElement el, 1 ≤ s.importance ∧ s.importance ≤ 10 := by
  intro s hs
  unfold processContentElement at hs
  rcases List.mem_append.mp hs with hs | hs
  · unfold pceBase at hs
    split at hs
    · simp only [List.mem_flatMap] at hs
      obtain ⟨h, hmem, hsh⟩ := hs
      obtain ⟨t, i, c, ch, nx, rfl, hp⟩ := collectElems_shape _ _ h hmem
      exact headSecOf_range (h := Dom.elemN t i c ch nx) hp s hsh
    · split at hs
      · split at hs
        · simp only [List.mem_singleton] at hs
          subst hs
          constructor <;> norm_num
        · simp at hs
      · split at hs
        · simp only [List.mem_singleton] at hs
          subst hs
          constructor <;> norm_num
        · simp at hs
  · have h6 := listSecsOf_imp _ s hs
    omega

theorem extractContentSections_range (p : Page) :
    ∀ s ∈ extractContentSections p, 1 ≤ s.importance ∧ s.importance ≤ 10 := by
  have hbase : ∀ s ∈ baseSections p, 1 ≤ s.importance ∧ s.importance ≤ 10 := by
    intro s hs
    unfold baseSections at hs
    split at hs
    · simp only [List.mem_flatMap] at hs
      obtain ⟨el, _, hsh⟩ := hs
      exact processContentElement_range el s hsh
    · exact processContentElement_range _ s hs
  intro s hs
  unfold extractContentSections at hs
  split at hs
  · rcases List.mem_append.mp hs with hs | hs
    · exact hbase s hs
    · simp only [List.mem_singleton] at hs
      subst hs
      constructor <;> norm_num
  · exact hbase s hs

theorem afterMain_ok_rows {p : Page} {acc secs : List ContentSection}
    (h : afterMain p acc = Except.ok secs) :
    ∃ rows, p.gmailQ.emailListItems = Except.ok rows := by
  unfold afterMain at h
  cases hq : p.gmailQ.emailListItems with
  | error e => rw [hq] at h; simp at h
  | ok rows => exact ⟨rows, rfl⟩

theorem afterBodies_ok_rows {p : Page} {acc secs : List ContentSection}
    (h : afterBodies p acc = Except.ok secs) :
    ∃ rows, p.gmailQ.emailListItems = Except.ok rows := by
  unfold afterBodies at h
  by_cases hl : acc.length ≤ 1
  · rw [if_pos hl] at h
    cases hq : p.gmailQ.mainElement with
    | error e => rw [hq] at h; simp at h
    | ok me => rw [hq] at h; exact afterMain_ok_rows h
  · rw [if_neg hl] at h
    exact afterMain_ok_rows h

theorem gmailRun_ok_rows {p : Page} {secs : List ContentSection}
    (h : gmailRun p = Except.ok secs) :
    ∃ rows, p.gmailQ.emailListItems = Except.ok rows := by
  unfold gmailRun at h
  split at h
  · simp at h
  · split at h
    · simp at h
    · split at h
      · exact afterBodies_ok_rows h
      · split at h
        · simp at h
        · split at h
          · exact afterBodies_ok_rows h
          · split at h
            · simp at h
            · exact afterBodies_ok_rows h

theorem extractGmailContent_range (p : Page) :
    ∀ s ∈ extractGmailContent p, 1 ≤ s.importance ∧ s.importance ≤ 10 := by
  intro s hs
  unfold extractGmailContent at hs
  cases hg : gmailRun p with
  | ok secs =>
    rw [hg] at hs
    obtain ⟨rows, hrows⟩ := gmailRun_ok_rows hg
    obtain ⟨acc, hdec, hP⟩ := gmailRun_ok_decomp hrows hg
    rw [hdec] at hs
    rcases List.mem_append.mp hs with h1 | h2
    · rcases hP s h1 with h | h | h | h <;> omega
    · have h6 := inboxSecs_imp rows s h2
      omega
  | error acc =>
    rw [hg] at hs
    rcases List.mem_append.mp hs with h1 | h2
    · rcases gmailRun_error_decomp hg s h1 with h | h | h | h <;> omega
    · simp only [List.mem_singleton] at h2
      subst h2
      constructor <;> norm_num

/-- C9: every section produced by either extraction path has an integer
importance between 1 and 10; in particular the heading importance mapping
`max(11 - headingLevel, 5)` stays in that range for every matched heading
tag. -/
theorem sections_importance_in_range (p : Page) :
    (∀ s ∈ (extractContent p).sections, 1 ≤ s.importance ∧ s.importance ≤ 10)
    ∧ ∀ t, isHeadingTag t = true →
        1 ≤ max (11 - (levelOf t : Int)) 5 ∧ max (11 - (levelOf t : Int)) 5 ≤ 10 := by
  constructor
  · intro s hs
    by_cases hg : isGmailHost p
    · rw [show (extractContent p).sections = extractGmailContent p from by
        unfold extractContent
        rw [if_pos hg]] at hs
      exact extractGmailContent_range p s hs
    · rw [show (extractContent p).sections = extractContentSections p from by
        unfold extractContent
        rw [if_neg hg]] at hs
      exact extractContentSections_range p s hs
  · intro t ht
    have hl := isHeadingTag_level ht
    constructor
    · exact le_trans (by norm_num) (le_max_right _ 5)
    · apply max_le
      · have h1 : (1 : Int) ≤ (levelOf t : Int) := by exact_mod_cast hl.1
        omega
      · norm_num

theorem sections_importance_in_range_witness :
    1 ≤ (ContentSection.mk (some "Title") "Body text." 10).importance
    ∧ (ContentSection.mk (some "Title") "Body text." 10).importance ≤ 10 :=
  (sections_importance_in_range genPage5).1 ⟨some "Title", "Body text.", 10⟩ (by decide)

/-- C10: `combineContentSections` sorts a copy — the `sections` field of the
result of `extractContent` is the emission-order list of the chosen
extraction path (not importance-sorted), while `mainContent` is rendered
from the sorted copy; on `demoPage` the two orders genuinely differ. -/
theorem extractContent_sections_unsorted (p : Page) :
    ((extractContent p).sections
      = if isGmailHost p then extractGmailContent p else extractContentSections p)
    ∧ (extractContent p).mainContent = combineContentSections (extractContent p).sections
    ∧ combineContentSections (extractContent p).sections
      = jsTrimS (renderSections (sortSections (extractContent p).sections))
    ∧ (extractContent demoPage).sections ≠ sortSections (extractContent demoPage).sections := by
  refine ⟨?_, ?_, rfl, by decide⟩
  · unfold extractContent
    by_cases hg : isGmailHost p
    · rw [if_pos hg, if_pos hg]
    · rw [if_neg hg, if_neg hg]
  · unfold extractContent
    by_cases hg : isGmailHost p
    · rw [if_pos hg]
    · rw [if_neg hg]

/-- C5 counterexample: on exactly the claimed page (an `article` holding one
`h1` "Title" followed by one paragraph "Body text.", no lists), the result
does not consist of the single claimed section with the claimed
`mainContent` — the under-100-words fallback appends a second section. -/
theorem scenario_h1_paragraph_cex :
    ¬ ((extractContent genPage5).sections
        = [{ heading := some "Title", content := "Body text.", importance := 10 }]
       ∧ (extractContent genPage5).mainContent = "## Title ##\n\nBody text.") := by
  decide

/-- C5 (amended): the page with one `h1` "Title" and one paragraph
"Body text." yields the claimed heading section followed by the
low-confidence whole-body fallback section at importance 5 (the combined
text has fewer than 100 words), and `mainContent` is the claimed string
followed by the body text. -/
theorem scenario_h1_paragraph_amended :
    (extractContent genPage5).sections
      = [{ heading := some "Title", content := "Body text.", importance := 10 },
         { heading := none, content := "Title\nBody text.", importance := 5 }]
    ∧ (extractContent genPage5).mainContent
      = "## Title ##\n\nBody text.\n\nTitle\nBody text." := by
  decide

theorem head?_dropWhile_isWs (l : List Char) :
    ∀ c, (l.dropWhile isWs).head? = some c → isWs c = false := by
  induction l with
  | nil => intro c h; simp at h
  | cons a t ih =>
    intro c h
    by_cases ha : isWs a
    · rw [List.dropWhile_cons, if_pos ha] at h
      exact ih c h
    · rw [List.dropWhile_cons, if_neg ha] at h
      simp only [List.head?_cons, Option.some.injEq] at h
      subst h
      simpa using ha

theorem getLast?_dropWhile_isWs (l : List Char) (h : l.dropWhile isWs ≠ []) :
    (l.dropWhile isWs).getLast? = l.getLast? := by
  induction l with
  | nil => simp at h
  | cons a t ih =>
    by_cases ha : isWs a
    · rw [List.dropWhile_cons, if_pos ha] at h ⊢
      have ht : t ≠ [] := by
        intro h0
        subst h0
        simp at h
      rw [ih h]
      cases t with
      | nil => exact absurd rfl ht
      | cons b u => rw [List.getLast?_cons_cons]
    · rw [List.dropWhile_cons, if_neg ha]

theorem head?_trimList (l : List Char) :
    ∀ c, (trimList l).head? = some c → isWs c = false := by
  intro c hc
  unfold trimList at hc
  rw [List.head?_reverse] at hc
  have hne : (l.dropWhile isWs).reverse.dropWhile isWs ≠ [] := by
    intro h0
    rw [h0] at hc
    simp at hc
  rw [getLast?_dropWhile_isWs _ hne, List.getLast?_reverse] at hc
  exact head?_dropWhile_isWs l c hc

theorem getLast?_trimList (l : List Char) :
    ∀ c, (trimList l).getLast? = some c → isWs c = false := by
  intro c hc
  unfold trimList at hc
  rw [List.getLast?_reverse] at hc
  exact head?_dropWhile_isWs _ c hc

theorem dropWhile_eq_self_of_head (w : List Char)
    (h : ∀ c, w.head? = some c → isWs c = false) : w.dropWhile isWs = w := by
  cases w with
  | nil => rfl
  | cons a t =>
    have ha := h a rfl
    rw [List.dropWhile_cons, if_neg (by simp [ha])]

theorem trimList_eq_self (w : List Char)
    (hh : ∀ c, w.head? = some c → isWs c = false)
    (hl : ∀ c, w.getLast? = some c → isWs c = false) : trimList w = w := by
  have h1 : w.dropWhile isWs = w := dropWhile_eq_self_of_head w hh
  have h2 : w.reverse.dropWhile isWs = w.reverse := by
    apply dropWhile_eq_self_of_head
    intro c hc
    rw [List.head?_reverse] at hc
    exact hl c hc
  unfold trimList
  rw [h1, h2, List.reverse_reverse]

theorem trimList_idem (l : List Char) : trimList (trimList l) = trimList l :=
  trimList_eq_self _ (head?_trimList l) (getLast?_trimList l)

theorem splitGo_no_nil :
    ∀ (cs acc : List Char) (inSep : Bool),
      (∀ c, cs.getLast? = some c → isWs c = false) →
      (cs = [] → acc ≠ []) →
      (acc = [] → inSep = false → ∀ c, cs.head? = some c → isWs c = false) →
      ∀ t ∈ splitGo inSep cs acc, t ≠ [] := by
  intro cs
  induction cs with
  | nil =>
    intro acc inSep _ h2 _ t ht
    simp only [splitGo, List.mem_singleton] at ht
    subst ht
    simpa using h2 rfl
  | cons c cs ih =>
    intro acc inSep h1 _ h3 t ht
    by_cases hc : isWs c
    · have hcs : cs ≠ [] := by
        intro h0
        subst h0
        exact absurd (h1 c (by simp)) (by simp [hc])
      have h1' : ∀ d, cs.getLast? = some d → isWs d = false := by
        intro d hd
        apply h1
        cases cs with
        | nil => exact absurd rfl hcs
        | cons b u => rw [List.getLast?_cons_cons]; exact hd
      cases inSep with
      | true =>
        rw [show splitGo true (c :: cs) acc = splitGo true cs [] from by
          simp [splitGo, hc]] at ht
        exact ih [] true h1' (fun h0 => absurd h0 hcs) (fun _ hf => absurd hf (by decide)) t ht
      | false =>
        have hacc : acc ≠ [] := by
          intro h0
          exact absurd (h3 h0 rfl c rfl) (by simp [hc])
        rw [show splitGo false (c :: cs) acc = acc.reverse :: splitGo true cs [] from by
          simp [splitGo, hc]] at ht
        rcases List.mem_cons.mp ht with rfl | ht
        · simpa using hacc
        · exact ih [] true h1' (fun h0 => absurd h0 hcs) (fun _ hf => absurd hf (by decide)) t ht
    · rw [show splitGo inSep (c :: cs) acc = splitGo false cs (c :: acc) from by
        simp [splitGo, hc]] at ht
      refine ih (c :: acc) false ?_ (fun _ => by simp) (fun h0 _ => absurd h0 (by simp)) t ht
      intro d hd
      apply h1
      cases cs with
      | nil => simp at hd
      | cons b u => rw [List.getLast?_cons_cons]; exact hd

theorem countWords_combine (secs : List ContentSection)
    (h : combineContentSections secs ≠ "") :
    countWords (combineContentSections secs)
      = (jsSplitWs (trimList (combineContentSections secs).data)).length := by
  have hdata : (combineContentSections secs).data
      = trimList (renderSections (sortSections secs)).data := rfl
  have hne : (combineContentSections secs).data ≠ [] := by
    intro h0
    apply h
    have heta : combineContentSections secs = String.mk (combineContentSections secs).data := rfl
    rw [heta, h0]
  have htrim : trimList (combineContentSections secs).data
      = (combineContentSections secs).data := by
    rw [hdata]
    exact trimList_idem _
  have hfil : (jsSplitWs (combineContentSections secs).data).filter (fun w => !w.isEmpty)
      = jsSplitWs (combineContentSections secs).data := by
    apply List.filter_eq_self.mpr
    intro a ha
    have ha' : a ∈ splitGo false (combineContentSections secs).data [] := ha
    have hnn := splitGo_no_nil (combineContentSections secs).data [] false
      (fun c hc => by rw [hdata] at hc; exact getLast?_trimList _ c hc)
      (fun h0 => absurd h0 hne)
      (fun _ _ c hc => by rw [hdata] at hc; exact head?_trimList _ c hc)
      a ha'
    simpa [List.isEmpty_iff] using hnn
  unfold countWords
  rw [htrim, hfil]

/-- C2: the `wordCount` of every extraction result equals the
whitespace-token count of its (already trimmed) `mainContent` — the length
of `mainContent.trim().split(/\s+/)` — whenever `mainContent` is
non-empty. -/
theorem extractContent_wordCount_eq_split_length (p : Page)
    (h : (extractContent p).mainContent ≠ "") :
    (extractContent p).wordCount
      = (jsSplitWs (trimList (extractContent p).mainContent.data)).length := by
  by_cases hg : isGmailHost p
  · have hmc : (extractContent p).mainContent
        = combineContentSections (extractGmailContent p) := by
      unfold extractContent
      rw [if_pos hg]
    have hwc : (extractContent p).wordCount
        = countWords (combineContentSections (extractGmailContent p)) := by
      unfold extractContent
      rw [if_pos hg]
    rw [hmc] at h
    rw [hmc, hwc]
    exact countWords_combine _ h
  · have hmc : (extractContent p).mainContent
        = combineContentSections (extractContentSections p) := by
      unfold extractContent
      rw [if_neg hg]
    have hwc : (extractContent p).wordCount
        = countWords (combineContentSections (extractContentSections p)) := by
      unfold extractContent
      rw [if_neg hg]
    rw [hmc] at h
    rw [hmc, hwc]
    exact countWords_combine _ h

theorem extractContent_wordCount_witness :
    (extractContent genPage5).mainContent ≠ ""
    ∧ (extractContent genPage5).wordCount
      = (jsSplitWs (trimList (extractContent genPage5).mainContent.data)).length :=
  ⟨by decide, extractContent_wordCount_eq_split_length genPage5 (by decide)⟩
